import Mathlib

/-!
Shallow embedding of the spreadsheet-style database editor
(`src/App.tsx`, `src/components/spreadsheet/DataGrid.tsx`,
`src/components/dialogs/CreateTableDialog.tsx`, `src/types/database.ts`).

Runtime cell values are JavaScript values; here they are modelled by the
tagged type `Value` (strings, numbers, booleans, `null`, `undefined`).
Numbers are modelled as integers: every numeric literal this development
evaluates is integral, and no claim depends on fractional or NaN numeric
values beyond the NaN produced by `undefined`/non-numeric strings, which
`jsToNumber` models with `none`.

Rows are modelled, as in `types/database.ts` and §3 of the design, as an
identifier together with an open mapping from column identifier to value;
the mapping is an association list with JavaScript object semantics
(assignment overwrites in place, rest-destructuring preserves the order of
the remaining keys).
-/

namespace SpreadsheetDB

/-- The runtime shape of a cell value (a JavaScript value). -/
inductive Value where
  | str (s : String)
  | num (n : Int)
  | bool (b : Bool)
  | null
  | undef
  deriving DecidableEq, Repr

/-- Field `Column.type` in `types/database.ts`: 'text' | 'number' | 'date' | 'boolean' | 'select'. -/
inductive ColumnType where
  | text
  | number
  | date
  | boolean
  | select
  deriving DecidableEq, Repr

/-- Structure `Column` in `types/database.ts`. -/
structure Column where
  id : String
  name : String
  type : ColumnType
  options : Option (List String) := Option.none
  required : Option Bool := Option.none
  width : Option Nat := Option.none
  deriving DecidableEq, Repr

/-- Structure `Row` in `types/database.ts`: `{ id: string, [key: string]: any }`.
The identifier is kept apart from the open column-id-to-value mapping,
as in §3 of the design ("identifier ... plus an open mapping"). -/
structure Row where
  id : String
  data : List (String × Value)
  deriving DecidableEq, Repr

/-- Structure `Table` in `types/database.ts` (timestamps and the owning-user id are
opaque environment strings that no operation reads; they are omitted). -/
structure Table where
  id : String
  name : String
  columns : List Column
  rows : List Row
  deriving DecidableEq, Repr

/-- JavaScript property read `row[k]`: the value stored under `k`, or
`undefined` when the key is absent. -/
def Row.get (r : Row) (k : String) : Value :=
  (r.data.lookup k).getD Value.undef

/-- JavaScript property assignment `obj[k] = v` on an association list:
an existing key keeps its position and gets the new value, a new key is
appended at the end (JS object key order). -/
def objInsert (k : String) (v : Value) : List (String × Value) → List (String × Value)
  | [] => [(k, v)]
  | (k', v') :: rest =>
      if k' = k then (k, v) :: rest else (k', v') :: objInsert k v rest

/-- JavaScript rest-destructuring `const { [k]: removed, ...rest } = obj`:
removes the key `k`, preserving the order of the remaining keys. -/
def objRemove (k : String) (d : List (String × Value)) : List (String × Value) :=
  d.filter (fun kv => kv.1 ≠ k)

/-- JavaScript truthiness of a cell value (`value ? ... : ...`, `value || ''`). -/
def jsTruthy : Value → Bool
  | .str s => s ≠ ""
  | .num n => n ≠ 0
  | .bool b => b
  | .null => false
  | .undef => false

/-- Parse the digits of a decimal numeral; `none` when the character list
is empty or contains a non-digit. -/
def parseDigits (cs : List Char) : Option Nat :=
  if cs = [] then Option.none
  else if cs.all Char.isDigit then
    Option.some (cs.foldl (fun a c => a * 10 + (c.toNat - 48)) 0)
  else Option.none

/-- JavaScript `String.prototype.trim`: drop leading and trailing
whitespace (kept executable down to the kernel, unlike `String.trim`). -/
def jsTrim (s : String) : String :=
  String.mk (((s.toList.dropWhile Char.isWhitespace).reverse.dropWhile
    Char.isWhitespace).reverse)

/-- JavaScript `ToNumber` on a string: surrounding whitespace is dropped,
the empty string is `0`, an optionally signed decimal integer numeral is
its value, anything else is NaN (`none`). Fractional, hexadecimal and
exponent forms are not modelled; no value this development evaluates has
one. -/
def strToNumber (s : String) : Option Int :=
  let t := jsTrim s
  if t = "" then Option.some 0
  else
    match t.toList with
    | '-' :: rest => (parseDigits rest).map (fun n => -(n : Int))
    | '+' :: rest => (parseDigits rest).map (fun n => (n : Int))
    | cs => (parseDigits cs).map (fun n => (n : Int))

/-- JavaScript `ToNumber`; `none` models NaN. -/
def jsToNumber : Value → Option Int
  | .str s => strToNumber s
  | .num n => Option.some n
  | .bool b => Option.some (if b then 1 else 0)
  | .null => Option.some 0
  | .undef => Option.none

/-- JavaScript `String(value)`. -/
def jsToString : Value → String
  | .str s => s
  | .num n => toString n
  | .bool b => if b then "true" else "false"
  | .null => "null"
  | .undef => "undefined"

/-- Outcome of the JavaScript abstract relational comparison as used by
`a < b` / `a > b` in the grid's comparator: `lt` when `a < b` is true,
`gt` when `a > b` is true, `other` when both are false (equal values, or
a NaN operand). Two strings compare lexicographically by code unit;
otherwise both operands go through `ToNumber`. -/
inductive JsCmp where
  | lt
  | gt
  | other
  deriving DecidableEq, Repr

/-- Numeric comparison of two `ToNumber` results; any NaN operand makes
both `<` and `>` false. -/
def numCmp (x y : Option Int) : JsCmp :=
  match x, y with
  | Option.some x, Option.some y =>
      if x < y then JsCmp.lt else if y < x then JsCmp.gt else JsCmp.other
  | _, _ => JsCmp.other

/-- Lexicographic (code-unit) comparison of two strings, as JavaScript
`<` / `>` on two string operands. -/
def strCmp (s t : String) : JsCmp :=
  if s < t then JsCmp.lt else if t < s then JsCmp.gt else JsCmp.other

/-- The JavaScript relational comparison on two cell values. -/
def jsCompare (a b : Value) : JsCmp :=
  match a, b with
  | .str s, .str t => strCmp s t
  | _, _ => numCmp (jsToNumber a) (jsToNumber b)

/-- Returns `true` exactly on `Value.num` values. -/
def Value.isNum : Value → Bool
  | .num _ => true
  | _ => false

/-- Returns `true` exactly on `Value.str` values. -/
def Value.isStr : Value → Bool
  | .str _ => true
  | _ => false

/-! ## Mutation Service (`App.tsx`)

Each handler first issues the remote call and only then updates local
state, surfacing a toast. The remote store is external; a handler is
therefore modelled as a function of the pre-state, its parameters, the
identifier generated for it, and a boolean `remoteOk` saying whether the
remote call(s) resolved or rejected. The returned pair is the post-state
and the list of toasts shown. -/

/-- A `toast(...)` call: `success` is the default variant, `failure` the
`destructive` variant; the string is the toast's description. -/
inductive Toast where
  | success (description : String)
  | failure (description : String)
  deriving DecidableEq, Repr

/-- The `App` component's persistent state: the table list and the active
table (`useState<Table[]>`, `useState<Table | null>`). -/
structure AppState where
  tables : List Table
  activeTable : Option Table
  deriving DecidableEq, Repr

/-- Handler `handleCreateTable` in `App.tsx` (lines 81-117): on remote success the
new table (input columns, no rows) is prepended to the table list and made
active; on failure only an error toast is shown. `tableId` stands for the
generated `` `table_${Date.now()}` ``. -/
def handleCreateTable (st : AppState) (name : String) (columns : List Column)
    (tableId : String) (remoteOk : Bool) : AppState × List Toast :=
  if remoteOk then
    let newTable : Table := { id := tableId, name := name, columns := columns, rows := [] }
    ({ tables := newTable :: st.tables, activeTable := Option.some newTable },
     [Toast.success ("Table \"" ++ name ++ "\" created successfully")])
  else
    (st, [Toast.failure "Failed to create table"])

/-- Handler `handleCreate` in `CreateTableDialog.tsx` (lines 46-56): the dialog
calls `onCreateTable(tableName.trim(), columns)` only when the trimmed
name is truthy and at least one column exists. -/
def dialogHandleCreate (tableName : String) (columns : List Column) :
    Option (String × List Column) :=
  if jsTrim tableName ≠ "" ∧ columns.length > 0 then
    Option.some (jsTrim tableName, columns)
  else
    Option.none

/-- The column built by `handleColumnAdd` in `App.tsx` (lines 129-135);
`genId` stands for the generated `` `col_${Date.now()}` ``. -/
def newColumnFor (table : Table) (genId : String) : Column :=
  { id := genId
    name := "Column " ++ toString (table.columns.length + 1)
    type := ColumnType.text
    required := Option.some false
    width := Option.some 200 }

/-- The success path of `handleColumnAdd` in `App.tsx` (lines 126-161):
the new column is appended to the column list; rows are untouched. -/
def handleColumnAdd (table : Table) (genId : String) : Table :=
  { table with columns := table.columns ++ [newColumnFor table genId] }

/-- The success path of `handleColumnUpdate` in `App.tsx` (lines 163-187):
the partial updates are merged into the identified column. Only the
merge shape matters here; `updates` is the merge function `{...col, ...updates}`. -/
def handleColumnUpdate (table : Table) (columnId : String) (updates : Column → Column) : Table :=
  { table with
    columns := table.columns.map (fun col => if col.id = columnId then updates col else col) }

/-- The success path of `handleColumnDelete` in `App.tsx` (lines 189-231):
the column is filtered out of the column list, and
`const { [columnId]: removed, ...rest } = row` strips its key from every
row. -/
def handleColumnDelete (table : Table) (columnId : String) : Table :=
  { table with
    columns := table.columns.filter (fun col => col.id ≠ columnId)
    rows := table.rows.map (fun row => { row with data := objRemove columnId row.data }) }

/-- The per-column default written by `handleRowAdd`:
`col.type === 'boolean' ? false : ''` (`App.tsx` line 241). -/
def defaultValueFor (t : ColumnType) : Value :=
  if t = ColumnType.boolean then Value.bool false else Value.str ""

/-- The row object built by `handleRowAdd` (`App.tsx` lines 236-242):
`{ id: rowId }` then one assignment `newRowData[col.id] = ...` per column. -/
def newRowFor (table : Table) (rowId : String) : Row :=
  { id := rowId
    data := table.columns.foldl (fun d col => objInsert col.id (defaultValueFor col.type) d) [] }

/-- The success path of `handleRowAdd` in `App.tsx` (lines 233-269): the
default-valued row is appended to the local row list. -/
def handleRowAdd (table : Table) (rowId : String) : Table :=
  { table with rows := table.rows ++ [newRowFor table rowId] }

/-- Handler `handleRowUpdate` in `App.tsx` (lines 271-297), with the remote
outcome explicit. The updated row list is computed, the remote update is
attempted only when the row is found, and local state is replaced only
after the remote call succeeds; on rejection the catch block shows the
error toast and local state is untouched. -/
def handleRowUpdate (st : AppState) (rowId columnId : String) (value : Value)
    (remoteOk : Bool) : AppState × List Toast :=
  match st.activeTable with
  | Option.none => (st, [])
  | Option.some activeTable =>
    let updatedRows := activeTable.rows.map (fun row =>
      if row.id = rowId then { row with data := objInsert columnId value row.data } else row)
    match updatedRows.find? (fun r => r.id = rowId) with
    | Option.none => (st, [])
    | Option.some _ =>
      if remoteOk then
        let updatedTable := { activeTable with rows := updatedRows }
        ({ tables := st.tables.map (fun t => if t.id = activeTable.id then updatedTable else t)
           activeTable := Option.some updatedTable }, [])
      else
        (st, [Toast.failure "Failed to update row"])

/-- The success path of `handleRowDelete` in `App.tsx` (lines 299-322):
the row is filtered out of the local row list after the remote delete. -/
def handleRowDelete (table : Table) (rowId : String) : Table :=
  { table with rows := table.rows.filter (fun row => row.id ≠ rowId) }

/-! ## Grid Engine (`DataGrid.tsx`)

Transient UI state (`useState` hooks of the `DataGrid` component) and the
gestures that change it. Gestures that call the mutation service are
modelled as returning, next to the new grid state, the list of intents
emitted upward (`onRowDelete`, `onCellEdit`, ...). -/

/-- State `sortDirection: 'asc' | 'desc'`. -/
inductive SortDir where
  | asc
  | desc
  deriving DecidableEq, Repr

/-- A mutation intent the grid emits upward to the `App` handlers. -/
inductive GridIntent where
  | rowDelete (rowId : String)
  | cellEdit (rowId columnId : String) (value : Value)
  deriving DecidableEq, Repr

/-- The `DataGrid` component's state hooks: `selectedRows` (a
`Set<string>`, modelled as its insertion-ordered duplicate-free list),
`editingCell`, `sortColumn`, `sortDirection`. -/
structure GridState where
  selectedRows : List String
  editingCell : Option (String × String)
  sortColumn : Option String
  sortDirection : SortDir
  deriving DecidableEq, Repr

/-- Handler `handleSort` in `DataGrid.tsx` (lines 174-181): clicking the column
already sorted flips the direction; clicking another column selects it
with direction ascending. Returns the new `(sortColumn, sortDirection)`. -/
def handleSort (sortColumn : Option String) (sortDirection : SortDir)
    (columnId : String) : Option String × SortDir :=
  if sortColumn = Option.some columnId then
    (sortColumn, if sortDirection = SortDir.asc then SortDir.desc else SortDir.asc)
  else
    (Option.some columnId, SortDir.asc)

/-- The comparator passed to `[...rows].sort` in `DataGrid.tsx`
(lines 183-192): `0` with no sort column; otherwise the rows' raw values
in the sort column under the JavaScript relational comparison, the sign
flipped for descending order. -/
def rowCompare (sortColumn : Option String) (sortDirection : SortDir) (a b : Row) : Int :=
  match sortColumn with
  | Option.none => 0
  | Option.some col =>
    match jsCompare (a.get col) (b.get col) with
    | JsCmp.lt => if sortDirection = SortDir.asc then -1 else 1
    | JsCmp.gt => if sortDirection = SortDir.asc then 1 else -1
    | JsCmp.other => 0

/-- Reads "`a` need not go after `b`": the comparator did not return a positive
number. A stable comparison sort places `a` before `b` exactly when this
holds of the pair in input order. -/
def rowLe (sortColumn : Option String) (sortDirection : SortDir) (a b : Row) : Bool :=
  rowCompare sortColumn sortDirection a b ≤ 0

/-- Insert `a` into `l` before the first element `b` with `le a b`
(stable insertion). -/
def stableInsert {α : Type} (le : α → α → Bool) (a : α) : List α → List α
  | [] => [a]
  | b :: l => if le a b then a :: b :: l else b :: stableInsert le a l

/-- Stable comparison sort (insertion sort from the right). For a
consistent comparator this is the unique stable sort, hence the result of
`Array.prototype.sort`, which ECMAScript requires to be stable; for an
inconsistent comparator ECMAScript leaves the order implementation-defined. -/
def stableSort {α : Type} (le : α → α → Bool) : List α → List α
  | [] => []
  | a :: l => stableInsert le a (stableSort le l)

/-- Computation `sortedRows` in `DataGrid.tsx` (lines 183-192):
`[...rows].sort((a, b) => ...)` with the comparator `rowCompare`. -/
def sortedRows (sortColumn : Option String) (sortDirection : SortDir)
    (rows : List Row) : List Row :=
  stableSort (rowLe sortColumn sortDirection) rows

/-- The numeric sort key of a row: its value in the sort column, read as
a number (`0` when it is not one; only used under the hypothesis that it
is one). -/
def sortKeyNum (col : String) (r : Row) : Int :=
  (jsToNumber (r.get col)).getD 0

/-- The string sort key of a row: its value in the sort column, when it
is a string (only used under the hypothesis that it is one). -/
def sortKeyStr (col : String) (r : Row) : String :=
  match r.get col with
  | Value.str s => s
  | _ => ""

/-- The per-row checkbox (`DataGrid.tsx` lines 301-312): copies the
selection, adds or removes the row's identifier, stores it back. -/
def gridRowCheckbox (g : GridState) (rowId : String) (checked : Bool) : GridState :=
  if checked then
    { g with selectedRows :=
        if rowId ∈ g.selectedRows then g.selectedRows else g.selectedRows ++ [rowId] }
  else
    { g with selectedRows := g.selectedRows.filter (fun i => i ≠ rowId) }

/-- The select-all checkbox (`DataGrid.tsx` lines 269-278): sets the
selection to all loaded row identifiers, or clears it. -/
def gridSelectAll (g : GridState) (rows : List Row) (checked : Bool) : GridState :=
  if checked then { g with selectedRows := (rows.map Row.id).dedup }
  else { g with selectedRows := [] }

/-- The per-row trash button (`DataGrid.tsx` lines 319-328): its click
handler is `() => onRowDelete(row.id)` — it emits the delete intent and
touches no grid state (in particular not the selection). -/
def gridRowDeleteClick (g : GridState) (rowId : String) : GridState × List GridIntent :=
  (g, [GridIntent.rowDelete rowId])

/-- The bulk "Delete (n)" button (`DataGrid.tsx` lines 232-244):
`selectedRows.forEach(rowId => onRowDelete(rowId)); setSelectedRows(new Set())` —
one delete intent per selected identifier in insertion order, then an
empty selection. -/
def gridBulkDeleteClick (g : GridState) : GridState × List GridIntent :=
  ({ g with selectedRows := [] }, g.selectedRows.map GridIntent.rowDelete)

/-! ## Cell rendering (`DataGrid.tsx` `renderCell` and `CellDisplay`) -/

/-- Line `const value = row[column.id] || ''` in `renderCell`
(`DataGrid.tsx` line 196): any falsy stored value is coerced to the empty
string; this `value` is what both `CellEditor` and `CellDisplay` receive. -/
def renderCellValue (row : Row) (column : Column) : Value :=
  let v := row.get column.id
  if jsTruthy v then v else Value.str ""

/-- The shape of what `CellDisplay` renders. -/
inductive CellView where
  | emptyPlaceholder
  | boolBox (checked : Bool)
  | dateText (raw : Value)
  | numberText (raw : Value)
  | plainText (s : String)
  deriving DecidableEq, Repr

/-- Component `CellDisplay` in `DataGrid.tsx` (lines 499-526): `null`, `undefined`
and the empty string render the italic "Empty" placeholder; otherwise the
column type picks the rendering. -/
def CellDisplay (column : Column) (value : Value) : CellView :=
  if value = Value.null ∨ value = Value.undef ∨ value = Value.str "" then
    CellView.emptyPlaceholder
  else
    match column.type with
    | ColumnType.boolean => CellView.boolBox (jsTruthy value)
    | ColumnType.date => CellView.dateText value
    | ColumnType.number => CellView.numberText value
    | _ => CellView.plainText (jsToString value)

/-! ## Concrete fixtures (used by the witness theorems) -/

/-- A number column "A". -/
def colA : Column := { id := "A", name := "A", type := ColumnType.number }

/-- A text column "B". -/
def colB : Column := { id := "B", name := "B", type := ColumnType.text }

/-- A row with A = 5, B = "x". -/
def rowOne : Row := { id := "row1", data := [("A", Value.num 5), ("B", Value.str "x")] }

/-- A row with A = 3, B = "y". -/
def rowTwo : Row := { id := "row2", data := [("A", Value.num 3), ("B", Value.str "y")] }

/-- A one-table fixture with columns [A, B] and rows [row1, row2]. -/
def tableAB : Table := { id := "t1", name := "T", columns := [colA, colB], rows := [rowOne, rowTwo] }

/-- An app state whose active table is `tableAB`. -/
def stateAB : AppState := { tables := [tableAB], activeTable := Option.some tableAB }

/-- A text column "Name", as in the spec's Contacts scenario. -/
def colName : Column :=
  { id := "Name", name := "Name", type := ColumnType.text, required := Option.some true }

/-- A boolean column "Active", as in the spec's Contacts scenario. -/
def colActive : Column := { id := "Active", name := "Active", type := ColumnType.boolean }

/-- A number column "N". -/
def colN : Column := { id := "N", name := "N", type := ColumnType.number }

/-- The spec's Contacts table: columns [Name:text, Active:boolean], no rows. -/
def contactsTable : Table :=
  { id := "t2", name := "Contacts", columns := [colName, colActive], rows := [] }

/-- A row whose "Active" value is boolean false and whose "N" value is 0. -/
def rowFalsy : Row :=
  { id := "row3", data := [("Active", Value.bool false), ("N", Value.num 0)] }

/-- A grid state with exactly row "row1" selected. -/
def gridSel1 : GridState :=
  { selectedRows := ["row1"], editingCell := Option.none,
    sortColumn := Option.none, sortDirection := SortDir.asc }

/-! ## Lemmas about the stable comparison sort -/

theorem stableInsert_perm {α : Type} (le : α → α → Bool) (a : α) (l : List α) :
    (stableInsert le a l).Perm (a :: l) := by
  induction l with
  | nil => exact List.Perm.refl _
  | cons b t ih =>
    by_cases h : le a b = true
    · simp [stableInsert, h]
    · rw [stableInsert, if_neg h]
      exact (ih.cons b).trans (List.Perm.swap a b t)

theorem stableSort_perm {α : Type} (le : α → α → Bool) (l : List α) :
    (stableSort le l).Perm l := by
  induction l with
  | nil => exact List.Perm.refl _
  | cons a t ih => exact (stableInsert_perm le a _).trans (ih.cons a)

theorem mem_stableSort {α : Type} (le : α → α → Bool) {x : α} {l : List α} :
    x ∈ stableSort le l ↔ x ∈ l :=
  (stableSort_perm le l).mem_iff

theorem chain'_stableInsert {α : Type} (le : α → α → Bool)
    (htot : ∀ x y, le x y = true ∨ le y x = true) (a : α) (l : List α)
    (h : l.Chain' (fun x y => le x y = true)) :
    (stableInsert le a l).Chain' (fun x y => le x y = true) := by
  induction l with
  | nil => simp [stableInsert]
  | cons b t ih =>
    by_cases hab : le a b = true
    · rw [stableInsert, if_pos hab]
      exact List.chain'_cons.mpr ⟨hab, h⟩
    · rw [stableInsert, if_neg hab]
      have hba : le b a = true := (htot a b).resolve_left hab
      refine List.chain'_cons'.mpr ⟨?_, ih h.tail⟩
      intro y hy
      cases t with
      | nil =>
        simp [stableInsert] at hy
        simpa [hy] using hba
      | cons c t' =>
        by_cases hac : le a c = true
        · rw [stableInsert, if_pos hac] at hy
          simp at hy
          simpa [hy] using hba
        · rw [stableInsert, if_neg hac] at hy
          simp at hy
          simpa [hy] using (List.chain'_cons.mp h).1

theorem chain'_stableSort {α : Type} (le : α → α → Bool)
    (htot : ∀ x y, le x y = true ∨ le y x = true) (l : List α) :
    (stableSort le l).Chain' (fun x y => le x y = true) := by
  induction l with
  | nil => simp [stableSort]
  | cons a t ih => exact chain'_stableInsert le htot a _ ih

theorem stableSort_of_chain' {α : Type} (le : α → α → Bool) {l : List α}
    (h : l.Chain' (fun x y => le x y = true)) :
    stableSort le l = l := by
  induction l with
  | nil => rfl
  | cons a t ih =>
    rw [stableSort, ih h.tail]
    cases t with
    | nil => rfl
    | cons b t' => rw [stableInsert, if_pos (List.chain'_cons.mp h).1]

theorem stableSort_idem {α : Type} (le : α → α → Bool)
    (htot : ∀ x y, le x y = true ∨ le y x = true) (l : List α) :
    stableSort le (stableSort le l) = stableSort le l :=
  stableSort_of_chain' le (chain'_stableSort le htot l)

theorem pairwise_stableInsert {α : Type} (le : α → α → Bool) (P : α → Prop)
    (htrans : ∀ x y z, P x → P y → P z → le x y = true → le y z = true → le x z = true)
    (htot : ∀ x y, P x → P y → le x y = true ∨ le y x = true)
    (a : α) (l : List α) (ha : P a) (hl : ∀ x ∈ l, P x)
    (hs : l.Pairwise (fun x y => le x y = true)) :
    (stableInsert le a l).Pairwise (fun x y => le x y = true) := by
  induction l with
  | nil => simp [stableInsert]
  | cons b t ih =>
    obtain ⟨hbt, hst⟩ := List.pairwise_cons.mp hs
    have hb : P b := hl b (List.mem_cons_self b t)
    by_cases hab : le a b = true
    · rw [stableInsert, if_pos hab]
      refine List.pairwise_cons.mpr ⟨?_, hs⟩
      intro x hx
      rcases List.mem_cons.mp hx with rfl | hx
      · exact hab
      · exact htrans a b x ha hb (hl x (List.mem_cons_of_mem b hx)) hab (hbt x hx)
    · rw [stableInsert, if_neg hab]
      have hba : le b a = true := (htot a b ha hb).resolve_left hab
      refine List.pairwise_cons.mpr
        ⟨?_, ih (fun x hx => hl x (List.mem_cons_of_mem b hx)) hst⟩
      intro x hx
      rcases List.mem_cons.mp ((stableInsert_perm le a t).mem_iff.mp hx) with rfl | hx'
      · exact hba
      · exact hbt x hx'

theorem pairwise_stableSort {α : Type} (le : α → α → Bool) (P : α → Prop)
    (htrans : ∀ x y z, P x → P y → P z → le x y = true → le y z = true → le x z = true)
    (htot : ∀ x y, P x → P y → le x y = true ∨ le y x = true)
    (l : List α) (hl : ∀ x ∈ l, P x) :
    (stableSort le l).Pairwise (fun x y => le x y = true) := by
  induction l with
  | nil => simp [stableSort]
  | cons a t ih =>
    exact pairwise_stableInsert le P htrans htot a _ (hl a (List.mem_cons_self a t))
      (fun x hx => hl x (List.mem_cons_of_mem a ((mem_stableSort le).mp hx)))
      (ih fun x hx => hl x (List.mem_cons_of_mem a hx))

/-! ## Lemmas about the grid's comparator -/

theorem numCmp_gt {x y : Option Int} (h : numCmp x y = JsCmp.gt) :
    numCmp y x = JsCmp.lt := by
  rcases x with _ | x <;> rcases y with _ | y <;>
    simp only [numCmp] at h ⊢ <;>
    (try split_ifs at h ⊢) <;>
    first
      | rfl
      | (exfalso; omega)
      | simp at h

theorem numCmp_lt {x y : Option Int} (h : numCmp x y = JsCmp.lt) :
    numCmp y x = JsCmp.gt := by
  rcases x with _ | x <;> rcases y with _ | y <;>
    simp only [numCmp] at h ⊢ <;>
    (try split_ifs at h ⊢) <;>
    first
      | rfl
      | (exfalso; omega)
      | simp at h

theorem strCmp_gt {s t : String} (h : strCmp s t = JsCmp.gt) :
    strCmp t s = JsCmp.lt := by
  unfold strCmp at h ⊢
  by_cases h1 : s < t
  · rw [if_pos h1] at h; simp at h
  · rw [if_neg h1] at h
    by_cases h2 : t < s
    · rw [if_pos h2]
    · rw [if_neg h2] at h; simp at h

theorem strCmp_lt {s t : String} (h : strCmp s t = JsCmp.lt) :
    strCmp t s = JsCmp.gt := by
  unfold strCmp at h ⊢
  by_cases h1 : s < t
  · rw [if_neg (lt_asymm h1), if_pos h1]
  · rw [if_neg h1] at h
    by_cases h2 : t < s
    · rw [if_pos h2] at h; simp at h
    · rw [if_neg h2] at h; simp at h

theorem jsCompare_gt {a b : Value} (h : jsCompare a b = JsCmp.gt) :
    jsCompare b a = JsCmp.lt := by
  cases a <;> cases b <;> simp only [jsCompare] at h ⊢ <;>
    first
      | exact numCmp_gt h
      | exact strCmp_gt h

theorem jsCompare_lt {a b : Value} (h : jsCompare a b = JsCmp.lt) :
    jsCompare b a = JsCmp.gt := by
  cases a <;> cases b <;> simp only [jsCompare] at h ⊢ <;>
    first
      | exact numCmp_lt h
      | exact strCmp_lt h

/-- The per-pair totality of the grid comparator: the comparator never
declares both orders strict, so a stable comparison sort may always place
one of the two rows first. -/
theorem rowLe_total (sortColumn : Option String) (sortDirection : SortDir) :
    ∀ a b, rowLe sortColumn sortDirection a b = true ∨
      rowLe sortColumn sortDirection b a = true := by
  intro a b
  rcases sortColumn with _ | col
  · left; simp [rowLe, rowCompare]
  · simp only [rowLe, rowCompare, decide_eq_true_eq]
    rcases hab : jsCompare (a.get col) (b.get col) with _ | _ | _ <;> cases sortDirection
    · left; simp [hab]
    · right; simp [jsCompare_lt hab]
    · right; simp [jsCompare_gt hab]
    · left; simp [hab]
    · left; simp [hab]
    · left; simp [hab]

theorem Value.isNum_iff {v : Value} : v.isNum = true ↔ ∃ n, v = Value.num n := by
  cases v <;> simp [Value.isNum]

theorem Value.isStr_iff {v : Value} : v.isStr = true ↔ ∃ s, v = Value.str s := by
  cases v <;> simp [Value.isStr]

/-- On two numeric values, ascending `rowLe` is exactly numeric `≤`. -/
theorem rowLe_num_iff {col : String} {a b : Row} {m n : Int}
    (ha : a.get col = Value.num m) (hb : b.get col = Value.num n) :
    rowLe (Option.some col) SortDir.asc a b = true ↔ m ≤ n := by
  simp only [rowLe, rowCompare, ha, hb, jsCompare, jsToNumber, numCmp,
    decide_eq_true_eq]
  split_ifs <;> simp <;> omega

/-- On two string values, ascending `rowLe` is exactly lexicographic `≤`. -/
theorem rowLe_str_iff {col : String} {a b : Row} {s t : String}
    (ha : a.get col = Value.str s) (hb : b.get col = Value.str t) :
    rowLe (Option.some col) SortDir.asc a b = true ↔ s ≤ t := by
  simp only [rowLe, rowCompare, ha, hb, jsCompare, strCmp, decide_eq_true_eq]
  split_ifs with h1 h2
  · simp [le_of_lt h1]
  · simp [not_le.mpr h2]
  · simp [le_of_not_lt h2]

/-! ## Lemmas about the object-as-association-list operations -/

theorem lookup_objRemove_self (k : String) (d : List (String × Value)) :
    (objRemove k d).lookup k = Option.none := by
  induction d with
  | nil => rfl
  | cons kv rest ih =>
    obtain ⟨k1, v1⟩ := kv
    by_cases h1 : k1 = k
    · simpa [objRemove, List.filter_cons, h1] using ih
    · simpa [objRemove, List.filter_cons, h1, List.lookup_cons,
        beq_false_of_ne (Ne.symm h1)] using ih

theorem lookup_objRemove_ne {k k' : String} (h : k' ≠ k) (d : List (String × Value)) :
    (objRemove k d).lookup k' = d.lookup k' := by
  induction d with
  | nil => rfl
  | cons kv rest ih =>
    obtain ⟨k1, v1⟩ := kv
    by_cases h1 : k1 = k
    · subst h1
      simpa [objRemove, List.filter_cons, List.lookup_cons, beq_false_of_ne h] using ih
    · by_cases h2 : k' = k1
      · subst h2
        simp [objRemove, List.filter_cons, h1, List.lookup_cons]
      · simpa [objRemove, List.filter_cons, h1, List.lookup_cons,
          beq_false_of_ne h2] using ih

theorem objInsert_eq_append {k : String} {v : Value} {d : List (String × Value)}
    (h : k ∉ d.map Prod.fst) : objInsert k v d = d ++ [(k, v)] := by
  induction d with
  | nil => rfl
  | cons kv rest ih =>
    obtain ⟨k1, v1⟩ := kv
    simp only [List.map_cons, List.mem_cons, not_or] at h
    rw [objInsert, if_neg (fun hx => h.1 hx.symm), ih h.2, List.cons_append]

theorem foldl_objInsert_defaults (cols : List Column) (d : List (String × Value))
    (hnd : (d.map Prod.fst ++ cols.map Column.id).Nodup) :
    cols.foldl (fun acc col => objInsert col.id (defaultValueFor col.type) acc) d
      = d ++ cols.map (fun c => (c.id, defaultValueFor c.type)) := by
  induction cols generalizing d with
  | nil => simp
  | cons c cols ih =>
    obtain ⟨-, -, hdisj⟩ := List.nodup_append.mp hnd
    have hk : c.id ∉ d.map Prod.fst := fun hmem =>
      hdisj hmem (by simp)
    rw [List.foldl_cons, objInsert_eq_append hk, ih, List.map_cons]
    · simp
    · simpa [List.append_assoc] using hnd

/-! ## Claim theorems -/

/-- C1: the grid's sort is a permutation of the row set ordered by the
selected column's raw value under native ordering — ascending sort places
numerically smaller values first when the column's values are numbers,
and lexicographically smaller values first when they are strings. -/
theorem sortedRows_orders_by_native_ordering (rows : List Row) (col : String) :
    (sortedRows (Option.some col) SortDir.asc rows).Perm rows ∧
    ((∀ r ∈ rows, (r.get col).isNum = true) →
      (sortedRows (Option.some col) SortDir.asc rows).Pairwise
        (fun a b => sortKeyNum col a ≤ sortKeyNum col b)) ∧
    ((∀ r ∈ rows, (r.get col).isStr = true) →
      (sortedRows (Option.some col) SortDir.asc rows).Pairwise
        (fun a b => sortKeyStr col a ≤ sortKeyStr col b)) := by
  refine ⟨stableSort_perm _ rows, ?_, ?_⟩
  · intro h
    have hpw := pairwise_stableSort (rowLe (Option.some col) SortDir.asc)
      (fun r => (r.get col).isNum = true)
      (fun x y z hx hy hz hxy hyz => by
        obtain ⟨m, hm⟩ := Value.isNum_iff.mp hx
        obtain ⟨n, hn⟩ := Value.isNum_iff.mp hy
        obtain ⟨p, hp⟩ := Value.isNum_iff.mp hz
        exact (rowLe_num_iff hm hp).mpr
          (le_trans ((rowLe_num_iff hm hn).mp hxy) ((rowLe_num_iff hn hp).mp hyz)))
      (fun x y hx hy => by
        obtain ⟨m, hm⟩ := Value.isNum_iff.mp hx
        obtain ⟨n, hn⟩ := Value.isNum_iff.mp hy
        rcases le_total m n with h' | h'
        · exact Or.inl ((rowLe_num_iff hm hn).mpr h')
        · exact Or.inr ((rowLe_num_iff hn hm).mpr h'))
      rows h
    refine List.Pairwise.imp_of_mem ?_ hpw
    intro a b ha hb hab
    obtain ⟨m, hm⟩ := Value.isNum_iff.mp (h a ((mem_stableSort _).mp ha))
    obtain ⟨n, hn⟩ := Value.isNum_iff.mp (h b ((mem_stableSort _).mp hb))
    have := (rowLe_num_iff hm hn).mp hab
    simpa [sortKeyNum, hm, hn, jsToNumber] using this
  · intro h
    have hpw := pairwise_stableSort (rowLe (Option.some col) SortDir.asc)
      (fun r => (r.get col).isStr = true)
      (fun x y z hx hy hz hxy hyz => by
        obtain ⟨s, hs⟩ := Value.isStr_iff.mp hx
        obtain ⟨t, ht⟩ := Value.isStr_iff.mp hy
        obtain ⟨u, hu⟩ := Value.isStr_iff.mp hz
        exact (rowLe_str_iff hs hu).mpr
          (le_trans ((rowLe_str_iff hs ht).mp hxy) ((rowLe_str_iff ht hu).mp hyz)))
      (fun x y hx hy => by
        obtain ⟨s, hs⟩ := Value.isStr_iff.mp hx
        obtain ⟨t, ht⟩ := Value.isStr_iff.mp hy
        rcases le_total s t with h' | h'
        · exact Or.inl ((rowLe_str_iff hs ht).mpr h')
        · exact Or.inr ((rowLe_str_iff ht hs).mpr h'))
      rows h
    refine List.Pairwise.imp_of_mem ?_ hpw
    intro a b ha hb hab
    obtain ⟨s, hs⟩ := Value.isStr_iff.mp (h a ((mem_stableSort _).mp ha))
    obtain ⟨t, ht⟩ := Value.isStr_iff.mp (h b ((mem_stableSort _).mp hb))
    have := (rowLe_str_iff hs ht).mp hab
    simpa [sortKeyStr, hs, ht] using this

/-- Witness for C1 at the spec's scenario: columns [A, B], row1.A = 5 and
row2.A = 3 are numeric, and ascending sort by A yields [row2, row1]. -/
theorem sortedRows_orders_by_native_ordering_witness :
    (∀ r ∈ [rowOne, rowTwo], (r.get "A").isNum = true) ∧
    (sortedRows (Option.some "A") SortDir.asc [rowOne, rowTwo]).Pairwise
      (fun a b => sortKeyNum "A" a ≤ sortKeyNum "A" b) ∧
    sortedRows (Option.some "A") SortDir.asc [rowOne, rowTwo] = [rowTwo, rowOne] :=
  ⟨by decide,
   (sortedRows_orders_by_native_ordering [rowOne, rowTwo] "A").2.1 (by decide),
   by decide⟩

/-- C7: re-applying the grid's sort with the same column and direction
yields the same row sequence as applying it once, for every row list,
sort column and direction. -/
theorem sortedRows_idempotent (rows : List Row) (sortColumn : Option String)
    (sortDirection : SortDir) :
    sortedRows sortColumn sortDirection (sortedRows sortColumn sortDirection rows)
      = sortedRows sortColumn sortDirection rows :=
  stableSort_idem _ (rowLe_total sortColumn sortDirection) rows

/-- C8: clicking the currently sorted column flips the direction (and a
second click restores it), while clicking a different column selects it
with direction ascending. -/
theorem handleSort_toggle (sortColumn : Option String) (sortDirection : SortDir)
    (columnId : String) :
    (sortColumn = Option.some columnId →
      handleSort sortColumn sortDirection columnId
        = (sortColumn,
           if sortDirection = SortDir.asc then SortDir.desc else SortDir.asc) ∧
      (handleSort sortColumn sortDirection columnId).2 ≠ sortDirection ∧
      (handleSort (handleSort sortColumn sortDirection columnId).1
          (handleSort sortColumn sortDirection columnId).2 columnId).2
        = sortDirection) ∧
    (sortColumn ≠ Option.some columnId →
      handleSort sortColumn sortDirection columnId
        = (Option.some columnId, SortDir.asc)) := by
  constructor
  · intro h
    subst h
    cases sortDirection <;> simp [handleSort]
  · intro h
    simp [handleSort, h]

/-- Witness for C8: with the grid sorted by "A" ascending, clicking "A"
yields descending, clicking "A" twice restores ascending, and clicking
"B" selects "B" ascending. -/
theorem handleSort_toggle_witness :
    handleSort (Option.some "A") SortDir.asc "A" = (Option.some "A", SortDir.desc) ∧
    (handleSort (handleSort (Option.some "A") SortDir.asc "A").1
        (handleSort (Option.some "A") SortDir.asc "A").2 "A").2 = SortDir.asc ∧
    handleSort (Option.some "A") SortDir.asc "B" = (Option.some "B", SortDir.asc) :=
  ⟨((handleSort_toggle (Option.some "A") SortDir.asc "A").1 rfl).1,
   ((handleSort_toggle (Option.some "A") SortDir.asc "A").1 rfl).2.2,
   (handleSort_toggle (Option.some "A") SortDir.asc "B").2 (by decide)⟩

/-- C2: when the remote `tableRows.update` call fails, `handleRowUpdate`
leaves the whole local state unchanged — every row of every table keeps
its pre-update value — and the only observable side effect is the single
failure toast. -/
theorem handleRowUpdate_failure_keeps_state (st : AppState) (t : Table)
    (rowId columnId : String) (value : Value)
    (hactive : st.activeTable = Option.some t)
    (hmem : rowId ∈ t.rows.map Row.id) :
    handleRowUpdate st rowId columnId value false
      = (st, [Toast.failure "Failed to update row"]) := by
  obtain ⟨r, hr, hid⟩ := List.mem_map.mp hmem
  simp only [handleRowUpdate, hactive]
  rcases hcase : (t.rows.map (fun row =>
      if row.id = rowId then { row with data := objInsert columnId value row.data }
      else row)).find? (fun r => r.id = rowId) with _ | y
  · refine absurd (List.find?_eq_none.mp hcase
      (if r.id = rowId then { r with data := objInsert columnId value r.data } else r)
      (List.mem_map_of_mem _ hr)) ?_
    rw [if_pos hid]
    simpa using hid
  · rw [hcase]
    rfl

/-- Witness for C2: a one-table, two-row state; a failing update of
row1.A leaves the state untouched and shows only the failure toast. -/
theorem handleRowUpdate_failure_keeps_state_witness :
    stateAB.activeTable = Option.some tableAB ∧
    "row1" ∈ tableAB.rows.map Row.id ∧
    handleRowUpdate stateAB "row1" "A" (Value.num 10) false
      = (stateAB, [Toast.failure "Failed to update row"]) :=
  ⟨rfl, by decide,
   handleRowUpdate_failure_keeps_state stateAB tableAB "row1" "A" (Value.num 10) rfl (by decide)⟩

/-- C3: `deleteColumn` yields a table in which no row has the deleted
column identifier as a key and the column list no longer contains it,
while every other column entry is kept and every row keeps its identifier
and its values under every other key. -/
theorem handleColumnDelete_strips_column (table : Table) (columnId : String) :
    (∀ r ∈ (handleColumnDelete table columnId).rows, r.data.lookup columnId = Option.none) ∧
    (∀ c ∈ (handleColumnDelete table columnId).columns, c.id ≠ columnId) ∧
    (∀ c ∈ table.columns, c.id ≠ columnId → c ∈ (handleColumnDelete table columnId).columns) ∧
    List.Forall₂ (fun r r' => r.id = r'.id ∧
        ∀ k, k ≠ columnId → r'.data.lookup k = r.data.lookup k)
      table.rows (handleColumnDelete table columnId).rows := by
  refine ⟨?_, ?_, ?_, ?_⟩
  · intro r hr
    simp only [handleColumnDelete, List.mem_map] at hr
    obtain ⟨r0, -, rfl⟩ := hr
    exact lookup_objRemove_self columnId r0.data
  · intro c hc
    simpa using (List.mem_filter.mp hc).2
  · intro c hc hne
    exact List.mem_filter.mpr ⟨hc, by simpa using hne⟩
  · rw [handleColumnDelete]
    refine List.forall₂_map_right_iff.mpr (List.forall₂_same.mpr ?_)
    intro r hr
    exact ⟨rfl, fun k hk => lookup_objRemove_ne hk r.data⟩

/-- Witness for C3: deleting column "A" from `tableAB` strips the "A"
key from every row and keeps column "B" and the rows' "B" values. -/
theorem handleColumnDelete_strips_column_witness :
    (∀ r ∈ (handleColumnDelete tableAB "A").rows, r.data.lookup "A" = Option.none) ∧
    (handleColumnDelete tableAB "A").columns = [colB] ∧
    (handleColumnDelete tableAB "A").rows
      = [{ id := "row1", data := [("B", Value.str "x")] },
         { id := "row2", data := [("B", Value.str "y")] }] :=
  ⟨(handleColumnDelete_strips_column tableAB "A").1, by decide, by decide⟩

/-- C4: `addRow` appends to the end of the row list a new row whose keys
are exactly the table's current column identifiers in order, with value
false for every boolean column and the empty string for every other
column; the column list is untouched. -/
theorem handleRowAdd_default_row (table : Table) (rowId : String)
    (hnd : (table.columns.map Column.id).Nodup) :
    (handleRowAdd table rowId).rows
      = table.rows ++ [Row.mk rowId (table.columns.map (fun c =>
          (c.id, if c.type = ColumnType.boolean then Value.bool false
                 else Value.str "")))] ∧
    (handleRowAdd table rowId).columns = table.columns := by
  refine ⟨?_, rfl⟩
  simp only [handleRowAdd, newRowFor]
  rw [foldl_objInsert_defaults _ _ (by simpa using hnd)]
  simp [defaultValueFor]

/-- Witness for C4 at the spec's Contacts scenario: addRow on a table
with columns [Name:text, Active:boolean] yields the single row
{Name: "", Active: false}. -/
theorem handleRowAdd_default_row_witness :
    (contactsTable.columns.map Column.id).Nodup ∧
    (handleRowAdd contactsTable "row9").rows
      = [{ id := "row9", data := [("Name", Value.str ""), ("Active", Value.bool false)] }] :=
  ⟨by decide, by
    simpa [contactsTable, colName, colActive] using
      (handleRowAdd_default_row contactsTable "row9" (by decide)).1⟩

/-- C5: for a valid trimmed name and a non-empty column list the dialog
submits, and `handleCreateTable` on remote success prepends a table with
exactly the input columns and no rows to the table list and makes it
active; on remote failure local state is unchanged and only the failure
toast is shown. -/
theorem handleCreateTable_spec (st : AppState) (name : String)
    (columns : List Column) (tableId : String)
    (hname : jsTrim name ≠ "") (hcols : columns ≠ []) :
    dialogHandleCreate name columns = Option.some (jsTrim name, columns) ∧
    (handleCreateTable st name columns tableId true).1.tables
      = { id := tableId, name := name, columns := columns, rows := [] } :: st.tables ∧
    (handleCreateTable st name columns tableId true).1.activeTable
      = Option.some { id := tableId, name := name, columns := columns, rows := [] } ∧
    (handleCreateTable st name columns tableId false).1 = st ∧
    (handleCreateTable st name columns tableId false).2
      = [Toast.failure "Failed to create table"] := by
  refine ⟨?_, rfl, rfl, rfl, rfl⟩
  rw [dialogHandleCreate, if_pos ⟨hname, List.length_pos.mpr hcols⟩]

/-- Witness for C5: creating "Contacts" with columns [Name, Active] over
the `stateAB` state prepends the new empty table on success and leaves
the state unchanged on failure. -/
theorem handleCreateTable_spec_witness :
    jsTrim "Contacts" ≠ "" ∧
    (handleCreateTable stateAB "Contacts" [colName, colActive] "t9" true).1.tables
      = { id := "t9", name := "Contacts", columns := [colName, colActive], rows := [] }
          :: stateAB.tables ∧
    (handleCreateTable stateAB "Contacts" [colName, colActive] "t9" false).1 = stateAB :=
  ⟨by decide,
   (handleCreateTable_spec stateAB "Contacts" [colName, colActive] "t9"
      (by decide) (by decide)).2.1,
   (handleCreateTable_spec stateAB "Contacts" [colName, colActive] "t9"
      (by decide) (by decide)).2.2.2.1⟩

/-- C6 counterexample: with row "row1" selected, clicking its per-row
delete button leaves "row1" in the selection set — the claim that
deleting a single row removes its identifier from the selection fails on
this input. -/
theorem gridRowDeleteClick_keeps_selection_counterexample :
    "row1" ∈ (gridRowDeleteClick gridSel1 "row1").1.selectedRows := by decide

/-- C6 amended: the per-row delete button emits the delete intent and
leaves the grid state — in particular the selection set — unchanged,
while bulk-delete emits exactly one delete intent per selected identifier
and then leaves the selection set empty. -/
theorem gridDelete_selection (g : GridState) (rowId : String)
    (hnd : g.selectedRows.Nodup) :
    (gridRowDeleteClick g rowId).1 = g ∧
    (gridRowDeleteClick g rowId).2 = [GridIntent.rowDelete rowId] ∧
    (∀ i ∈ g.selectedRows,
      (gridBulkDeleteClick g).2.count (GridIntent.rowDelete i) = 1) ∧
    (gridBulkDeleteClick g).2.length = g.selectedRows.length ∧
    (gridBulkDeleteClick g).1.selectedRows = [] := by
  refine ⟨rfl, rfl, ?_, by simp [gridBulkDeleteClick], rfl⟩
  intro i hi
  rw [gridBulkDeleteClick,
    List.count_map_of_injective _ GridIntent.rowDelete (fun a b h => by injection h) i]
  exact List.count_eq_one_of_mem hnd hi

/-- Witness for C6 amended: with "row1" and "row2" selected, the per-row
delete leaves the selection unchanged, and bulk delete emits one intent
per selected row and clears the selection. -/
theorem gridDelete_selection_witness :
    (gridRowDeleteClick { gridSel1 with selectedRows := ["row1", "row2"] } "row1").1
      = { gridSel1 with selectedRows := ["row1", "row2"] } ∧
    (gridBulkDeleteClick { gridSel1 with selectedRows := ["row1", "row2"] }).2.length = 2 ∧
    (gridBulkDeleteClick { gridSel1 with selectedRows := ["row1", "row2"] }).1.selectedRows
      = [] :=
  ⟨(gridDelete_selection { gridSel1 with selectedRows := ["row1", "row2"] } "row1"
      (by decide)).1,
   (gridDelete_selection { gridSel1 with selectedRows := ["row1", "row2"] } "row1"
      (by decide)).2.2.2.1,
   (gridDelete_selection { gridSel1 with selectedRows := ["row1", "row2"] } "row1"
      (by decide)).2.2.2.2⟩

/-- C9: `addColumn` appends exactly one column — with the generated
identifier, default type text and default width 200 — to the end of the
column list, and leaves every row unchanged, so the new column's key is
absent from all existing rows. -/
theorem handleColumnAdd_appends_column (table : Table) (genId : String)
    (hfresh : ∀ r ∈ table.rows, r.data.lookup genId = Option.none) :
    (handleColumnAdd table genId).columns = table.columns ++ [newColumnFor table genId] ∧
    (newColumnFor table genId).id = genId ∧
    (newColumnFor table genId).type = ColumnType.text ∧
    (newColumnFor table genId).width = Option.some 200 ∧
    (handleColumnAdd table genId).rows = table.rows ∧
    (∀ r ∈ (handleColumnAdd table genId).rows, r.data.lookup genId = Option.none) :=
  ⟨rfl, rfl, rfl, rfl, rfl, hfresh⟩

/-- Witness for C9: adding a column with fresh identifier "C" to
`tableAB` leaves both rows unchanged and without a "C" key. -/
theorem handleColumnAdd_appends_column_witness :
    (∀ r ∈ tableAB.rows, r.data.lookup "C" = Option.none) ∧
    (handleColumnAdd tableAB "C").rows = tableAB.rows ∧
    (∀ r ∈ (handleColumnAdd tableAB "C").rows, r.data.lookup "C" = Option.none) :=
  ⟨by decide,
   (handleColumnAdd_appends_column tableAB "C" (by decide)).2.2.2.2.1,
   (handleColumnAdd_appends_column tableAB "C" (by decide)).2.2.2.2.2⟩

/-- C10: a falsy stored cell value — boolean false, the number 0, the
empty string, null, undefined, or a missing key — is coerced to the empty
string before display, so the grid renders the "Empty" placeholder (and
hands the empty string to the cell editor) instead of an unchecked box or
the digit 0. -/
theorem renderCell_falsy_displays_empty (row : Row) (column : Column)
    (h : jsTruthy (row.get column.id) = false) :
    renderCellValue row column = Value.str "" ∧
    CellDisplay column (renderCellValue row column) = CellView.emptyPlaceholder := by
  have h1 : renderCellValue row column = Value.str "" := by
    simp [renderCellValue, h]
  refine ⟨h1, ?_⟩
  rw [h1]
  simp [CellDisplay]

/-- Witness for C10: a boolean column storing false and a number column
storing 0 both render the "Empty" placeholder. -/
theorem renderCell_falsy_displays_empty_witness :
    jsTruthy (rowFalsy.get "Active") = false ∧
    CellDisplay colActive (renderCellValue rowFalsy colActive) = CellView.emptyPlaceholder ∧
    jsTruthy (rowFalsy.get "N") = false ∧
    CellDisplay colN (renderCellValue rowFalsy colN) = CellView.emptyPlaceholder :=
  ⟨by decide,
   (renderCell_falsy_displays_empty rowFalsy colActive (by decide)).2,
   by decide,
   (renderCell_falsy_displays_empty rowFalsy colN (by decide)).2⟩

end SpreadsheetDB
